import Mathlib

/-!
# HSA agent discovery, pool cataloging, cross-device allocation and copy timing

A shallow embedding of `src/src/amat_init.cpp` (`GetCopyTime`, `ProcessAgent`,
`ProcessMemPool`, `Allocate`, `InitAgents`, `test`) and of the record
`AgentInformation` of `src/inc/amat_init.h`.

Conventions of the embedding

* HSA handles (`hsa_agent_t`, `hsa_amd_memory_pool_t`, `hsa_signal_t`) and buffer
  addresses (`void*`) are natural numbers.
* The HSA runtime is a record of functions over an abstract runtime state `σ`;
  a call that reports a status other than `HSA_STATUS_SUCCESS` yields `none`
  (or `false`) and leaves its out-parameter untouched.
* Every call into the runtime that creates or releases a resource, or asks for a
  permission, is appended to a chronological log (`World.log`).
* The global `agent_list` is passed explicitly.
* `std::vector::operator[]` past the end is undefined behaviour in C++; the
  embedding reads vectors with `xs[i]?` and stops with a dedicated outcome.
* Console output is not modelled.
-/

namespace Amat

/-! ## Data model -/

abbrev hsa_agent_t := Nat
abbrev hsa_amd_memory_pool_t := Nat
abbrev hsa_signal_t := Nat
/-- Address of a buffer (`void*`). -/
abbrev Buffer := Nat

/-- Status returned by runtime callbacks. -/
inductive hsa_status_t
  | HSA_STATUS_SUCCESS
  | HSA_STATUS_ERROR
  deriving DecidableEq, Repr

/-- Values of `hsa_amd_memory_pool_access_t`. -/
inductive hsa_amd_memory_pool_access_t
  | NEVER_ALLOWED
  | ALLOWED_BY_DEFAULT
  | DISALLOWED_BY_DEFAULT
  deriving DecidableEq, Repr

/-- Values of `hsa_amd_segment_t`. -/
inductive hsa_amd_segment_t
  | GLOBAL
  | READONLY
  | PRIVATE
  | GROUP
  deriving DecidableEq, Repr

/-- The record `struct AgentInformation`. The field `sys_pool` is left
uninitialised by the C++ default constructor; `none` stands for "never assigned". -/
structure AgentInformation where
  agent : hsa_agent_t
  agent_name : String
  agent_device_type : String
  node : Nat
  sys_pool : Option hsa_amd_memory_pool_t
  mem_pool_list : List hsa_amd_memory_pool_t
  max_size_list : List Nat
  deriving DecidableEq, Repr

/-! ## The runtime capability interface -/

/-- One call into the runtime, with its arguments and its answer. -/
inductive Event
  | allocate (pool : hsa_amd_memory_pool_t) (size : Nat) (res : Option Buffer)
  | get_access (agent : hsa_agent_t) (pool : hsa_amd_memory_pool_t)
      (res : Option hsa_amd_memory_pool_access_t)
  | allow_access (agent : hsa_agent_t) (buf : Buffer) (ok : Bool)
  | free (buf : Buffer)
  | signal_create (res : Option hsa_signal_t)
  | async_copy (dst : Buffer) (dst_agent : hsa_agent_t) (src : Buffer)
      (src_agent : hsa_agent_t) (size : Nat) (sig : hsa_signal_t) (ok : Bool)
  | signal_destroy (sig : hsa_signal_t)
  deriving DecidableEq, Repr

/-- The HSA runtime calls used by `Allocate` and `test`, over a runtime state `σ`.
Each may fail independently of the others. -/
structure Runtime (σ : Type) where
  /-- The call `hsa_amd_memory_pool_allocate(pool, size, 0, &ptr)`: `none` on failure. -/
  hsa_amd_memory_pool_allocate : σ → hsa_amd_memory_pool_t → Nat → Option Buffer × σ
  /-- The call `hsa_amd_agent_memory_pool_get_info(agent, pool, ..._INFO_ACCESS, &access)`. -/
  hsa_amd_agent_memory_pool_get_info :
    σ → hsa_agent_t → hsa_amd_memory_pool_t → Option hsa_amd_memory_pool_access_t × σ
  /-- The call `hsa_amd_agents_allow_access(1, &agent, NULL, ptr)`: `true` on success. -/
  hsa_amd_agents_allow_access : σ → hsa_agent_t → Buffer → Bool × σ
  /-- The call `hsa_amd_memory_pool_free(ptr)`; its status is ignored by the program. -/
  hsa_amd_memory_pool_free : σ → Buffer → σ
  /-- The call `hsa_signal_create(1, 0, NULL, &signal)`: `none` on failure. -/
  hsa_signal_create : σ → Option hsa_signal_t × σ
  /-- The call `hsa_signal_store_relaxed(signal, value)`. -/
  hsa_signal_store_relaxed : σ → hsa_signal_t → Nat → σ
  /-- The call `hsa_amd_memory_async_copy(dst, dst_agent, src, src_agent, size, 0, NULL, signal)`. -/
  hsa_amd_memory_async_copy :
    σ → Buffer → hsa_agent_t → Buffer → hsa_agent_t → Nat → hsa_signal_t → Bool × σ
  /-- The call `hsa_signal_wait_acquire(signal, LT, 1, -1, ACTIVE)`: the observed signal value. -/
  hsa_signal_wait_acquire : σ → hsa_signal_t → Nat × σ
  /-- The call `hsa_amd_profiling_get_async_copy_time(signal, &t)`: `(start, end)`, `none` on failure. -/
  hsa_amd_profiling_get_async_copy_time : σ → hsa_signal_t → Option (Nat × Nat) × σ
  /-- The call `hsa_signal_destroy(signal)`. -/
  hsa_signal_destroy : σ → hsa_signal_t → σ

/-- Runtime state together with the chronological log of calls made so far. -/
structure World (σ : Type) where
  st : σ
  log : List Event

variable {σ : Type}

def World.allocate (rt : Runtime σ) (w : World σ) (pool : hsa_amd_memory_pool_t) (size : Nat) :
    Option Buffer × World σ :=
  let r := rt.hsa_amd_memory_pool_allocate w.st pool size
  (r.1, ⟨r.2, w.log ++ [Event.allocate pool size r.1]⟩)

def World.get_access (rt : Runtime σ) (w : World σ) (agent : hsa_agent_t)
    (pool : hsa_amd_memory_pool_t) : Option hsa_amd_memory_pool_access_t × World σ :=
  let r := rt.hsa_amd_agent_memory_pool_get_info w.st agent pool
  (r.1, ⟨r.2, w.log ++ [Event.get_access agent pool r.1]⟩)

def World.allow_access (rt : Runtime σ) (w : World σ) (agent : hsa_agent_t) (buf : Buffer) :
    Bool × World σ :=
  let r := rt.hsa_amd_agents_allow_access w.st agent buf
  (r.1, ⟨r.2, w.log ++ [Event.allow_access agent buf r.1]⟩)

def World.free (rt : Runtime σ) (w : World σ) (buf : Buffer) : World σ :=
  ⟨rt.hsa_amd_memory_pool_free w.st buf, w.log ++ [Event.free buf]⟩

def World.signal_create (rt : Runtime σ) (w : World σ) : Option hsa_signal_t × World σ :=
  let r := rt.hsa_signal_create w.st
  (r.1, ⟨r.2, w.log ++ [Event.signal_create r.1]⟩)

def World.async_copy (rt : Runtime σ) (w : World σ) (dst : Buffer) (dst_agent : hsa_agent_t)
    (src : Buffer) (src_agent : hsa_agent_t) (size : Nat) (sig : hsa_signal_t) :
    Bool × World σ :=
  let r := rt.hsa_amd_memory_async_copy w.st dst dst_agent src src_agent size sig
  (r.1, ⟨r.2, w.log ++ [Event.async_copy dst dst_agent src src_agent size sig r.1]⟩)

def World.signal_destroy (rt : Runtime σ) (w : World σ) (sig : hsa_signal_t) : World σ :=
  ⟨rt.hsa_signal_destroy w.st sig, w.log ++ [Event.signal_destroy sig]⟩

/-- Buffers still allocated at the end of a log: each `free` releases one
earlier allocation of that address. -/
def heldBuffers (log : List Event) : List Buffer :=
  log.foldl
    (fun held e =>
      match e with
      | Event.allocate _ _ (some b) => held ++ [b]
      | Event.free b => held.erase b
      | _ => held)
    []

/-- Signals created and not yet destroyed at the end of a log. -/
def heldSignals (log : List Event) : List hsa_signal_t :=
  log.foldl
    (fun held e =>
      match e with
      | Event.signal_create (some s) => held ++ [s]
      | Event.signal_destroy s => held.erase s
      | _ => held)
    []

/-! ## `Allocate` -/

/-- What a call of `Allocate` produces: `return 0` with the four out-parameters set,
`return -1`, or an `operator[]` with an index that is not below the size of the
vector (undefined behaviour), with that index and that size. -/
inductive AllocResult
  | success (pSrcPool : hsa_amd_memory_pool_t) (SrcBuff : Buffer)
      (pDstPool : hsa_amd_memory_pool_t) (DstBuff : Buffer)
  | failure
  | out_of_range (index : Int) (size : Nat)
  deriving DecidableEq, Repr

/-- How the loop over the destination pools ends: by a `return` of `Allocate`,
or by running past the last pool. -/
inductive LoopExit
  | returned (r : AllocResult)
  | fallthrough
  deriving DecidableEq, Repr

/-- The read `agent_list[ix]` for an `int` index; `none` when the index is out of range. -/
def agentAt (agent_list : List AgentInformation) (ix : Int) : Option AgentInformation :=
  if ix < 0 then none else agent_list[ix.toNat]?

/-- The loop `for (size_t j = 0; j < agent_list[DstAgent].mem_pool_list.size(); j++)`
of `Allocate` (lines 291-360), entered with `srcbuff` allocated from source pool `i`.
The first argument counts the iterations left, the second is `j`. -/
def dst_pool_loop (rt : Runtime σ) (src dst : AgentInformation) (Size : Nat) (i : Nat)
    (srcbuff : Buffer) : Nat → Nat → World σ → LoopExit × World σ
  | 0, _, w => (LoopExit.fallthrough, w)
  | rem + 1, j, w =>
    match dst.max_size_list[j]? with
    | none => (LoopExit.returned (AllocResult.out_of_range j dst.max_size_list.length), w)
    | some dmax =>
      if Size > dmax then dst_pool_loop rt src dst Size i srcbuff rem (j + 1) w
      else
        -- the pool whose access is queried, and the agent asking
        match (if src.agent_device_type = "CPU"
                then (src.mem_pool_list[j]?).map (fun p => (dst.agent, p))
                else (dst.mem_pool_list[j]?).map (fun p => (src.agent, p))) with
        | none =>
          (LoopExit.returned (AllocResult.out_of_range j
            (if src.agent_device_type = "CPU" then src.mem_pool_list.length
              else dst.mem_pool_list.length)), w)
        | some (asker, qpool) =>
          match World.get_access rt w asker qpool with
          | (none, w1) => (LoopExit.returned AllocResult.failure, w1)
          | (some access, w1) =>
            if access = hsa_amd_memory_pool_access_t.NEVER_ALLOWED then
              dst_pool_loop rt src dst Size i srcbuff rem (j + 1) w1
            else
              match dst.mem_pool_list[j]? with
              | none =>
                (LoopExit.returned (AllocResult.out_of_range j dst.mem_pool_list.length), w1)
              | some dpool =>
                match World.allocate rt w1 dpool Size with
                | (none, w2) => dst_pool_loop rt src dst Size i srcbuff rem (j + 1) w2
                | (some dstbuff, w2) =>
                  match (if src.agent_device_type = "CPU"
                          then World.allow_access rt w2 dst.agent srcbuff
                          else World.allow_access rt w2 src.agent dstbuff) with
                  | (false, w3) =>
                    dst_pool_loop rt src dst Size i srcbuff rem (j + 1) (World.free rt w3 dstbuff)
                  | (true, w3) =>
                    match src.mem_pool_list[i]? with
                    | none =>
                      (LoopExit.returned (AllocResult.out_of_range i src.mem_pool_list.length),
                        w3)
                    | some spool =>
                      (LoopExit.returned (AllocResult.success spool srcbuff dpool dstbuff), w3)

/-- The loop `for (size_t i = 0; i < agent_list[SrcAgent].mem_pool_list.size(); i++)`
of `Allocate` (lines 276-364) followed by the final `return -1`. -/
def src_pool_loop (rt : Runtime σ) (src dst : AgentInformation) (Size : Nat) :
    Nat → Nat → World σ → AllocResult × World σ
  | 0, _, w => (AllocResult.failure, w)
  | rem + 1, i, w =>
    match src.max_size_list[i]? with
    | none => (AllocResult.out_of_range i src.max_size_list.length, w)
    | some smax =>
      if Size > smax then src_pool_loop rt src dst Size rem (i + 1) w
      else
        match src.mem_pool_list[i]? with
        | none => (AllocResult.out_of_range i src.mem_pool_list.length, w)
        | some spool =>
          match World.allocate rt w spool Size with
          | (none, w1) => src_pool_loop rt src dst Size rem (i + 1) w1
          | (some srcbuff, w1) =>
            match dst_pool_loop rt src dst Size i srcbuff dst.mem_pool_list.length 0 w1 with
            | (LoopExit.returned r, w2) => (r, w2)
            | (LoopExit.fallthrough, w2) =>
              src_pool_loop rt src dst Size rem (i + 1) (World.free rt w2 srcbuff)

/-- The function `Allocate(SrcAgent, DstAgent, Size, ...)`. -/
def Allocate (rt : Runtime σ) (agent_list : List AgentInformation) (SrcAgent DstAgent : Int)
    (Size : Nat) (w : World σ) : AllocResult × World σ :=
  match agentAt agent_list SrcAgent, agentAt agent_list DstAgent with
  | some src, some dst => src_pool_loop rt src dst Size src.mem_pool_list.length 0 w
  | none, _ => (AllocResult.out_of_range SrcAgent agent_list.length, w)
  | some _, none => (AllocResult.out_of_range DstAgent agent_list.length, w)

/-! ## `GetCopyTime` -/

/-- Subtraction of two `uint64_t` values: the difference modulo `2 ^ 64`. -/
def uint64_sub (a b : Nat) : Nat :=
  (a % 2 ^ 64 + 2 ^ 64 - b % 2 ^ 64) % 2 ^ 64

/-- Conversion of a `uint64_t` to `double` (binary64, 53 significant bits, round to
nearest, ties to even). The converted value is always a whole number. -/
def uint64_to_double (n : Nat) : Nat :=
  if n < 2 ^ 53 then n
  else
    let e := Nat.log2 n - 52
    let q := n / 2 ^ e
    let r := n % 2 ^ e
    let half := 2 ^ (e - 1)
    let q1 := if r > half ∨ (r = half ∧ q % 2 = 1) then q + 1 else q
    q1 * 2 ^ e

/-- The function `double GetCopyTime(hsa_signal_t signal_fwd)`: the returned `double`
(always a whole number here) and the runtime after the profiling query. -/
def GetCopyTime (rt : Runtime σ) (w : World σ) (signal_fwd : hsa_signal_t) : Int × World σ :=
  match rt.hsa_amd_profiling_get_async_copy_time w.st signal_fwd with
  | (none, s1) => (-1, ⟨s1, w.log⟩)
  | (some (t_start, t_end), s1) =>
    (((uint64_to_double (uint64_sub t_end t_start) : Nat) : Int), ⟨s1, w.log⟩)

/-! ## `ProcessAgent` -/

/-- Answers of `hsa_agent_get_info(agent, attribute, ...)`; `none` is a failed query. -/
structure AgentQueries where
  HSA_AGENT_INFO_NAME : hsa_agent_t → Option String
  HSA_AGENT_INFO_DEVICE : hsa_agent_t → Option Nat
  HSA_AGENT_INFO_NODE : hsa_agent_t → Option Nat

/-- Codes of `hsa_device_type_t` in `hsa/hsa.h`. -/
def HSA_DEVICE_TYPE_CPU : Nat := 0
def HSA_DEVICE_TYPE_GPU : Nat := 1
def HSA_DEVICE_TYPE_DSP : Nat := 2

/-- The callback `ProcessAgent(agent, data)`, with `data` the agent list.
The local `log_agent_name` is declared and never assigned; the queried
`agent_name` is not used after the query. -/
def ProcessAgent (q : AgentQueries) (agent : hsa_agent_t) (agent_l : List AgentInformation) :
    hsa_status_t × List AgentInformation :=
  let log_agent_name : String := ""
  match q.HSA_AGENT_INFO_NAME agent with
  | none => (hsa_status_t.HSA_STATUS_ERROR, agent_l)
  | some _agent_name =>
    match q.HSA_AGENT_INFO_DEVICE agent with
    | none => (hsa_status_t.HSA_STATUS_ERROR, agent_l)
    | some device_type =>
      match q.HSA_AGENT_INFO_NODE agent with
      | none => (hsa_status_t.HSA_STATUS_ERROR, agent_l)
      | some node =>
        let agent_device_type : String :=
          if device_type = HSA_DEVICE_TYPE_CPU then "CPU"
          else if device_type = HSA_DEVICE_TYPE_GPU then "GPU"
          else if device_type = HSA_DEVICE_TYPE_DSP then "DSP"
          else ""
        (hsa_status_t.HSA_STATUS_SUCCESS,
          agent_l ++ [{ agent := agent, agent_name := log_agent_name,
                        agent_device_type := agent_device_type, node := node,
                        sys_pool := none, mem_pool_list := [], max_size_list := [] }])

/-! ## `ProcessMemPool` -/

/-- Answers of `hsa_amd_memory_pool_get_info` and of
`hsa_amd_agent_memory_pool_get_info`; `none` is a failed query. -/
structure PoolQueries where
  HSA_AMD_MEMORY_POOL_INFO_SEGMENT : hsa_amd_memory_pool_t → Option hsa_amd_segment_t
  HSA_AMD_MEMORY_POOL_INFO_RUNTIME_ALLOC_ALLOWED : hsa_amd_memory_pool_t → Option Bool
  HSA_AMD_MEMORY_POOL_INFO_SIZE : hsa_amd_memory_pool_t → Option Nat
  HSA_AMD_MEMORY_POOL_INFO_ACCESSIBLE_BY_ALL : hsa_amd_memory_pool_t → Option Bool
  HSA_AMD_AGENT_MEMORY_POOL_INFO_ACCESS :
    hsa_agent_t → hsa_amd_memory_pool_t → Option hsa_amd_memory_pool_access_t
  HSA_AMD_MEMORY_POOL_INFO_GLOBAL_FLAGS : hsa_amd_memory_pool_t → Option Nat

/-- The flag `HSA_AMD_MEMORY_POOL_GLOBAL_FLAG_KERNARG_INIT` of `hsa/hsa_ext_amd.h`. -/
def HSA_AMD_MEMORY_POOL_GLOBAL_FLAG_KERNARG_INIT : Nat := 1

/-- The callback `ProcessMemPool(pool, data)`, with `data` the agent record.
`none` is the read of the uninitialised local `segment` after a failed segment
query. The locals `alloc`, `max_size` and `flag` keep their initial values
`false`, `0` and `0` when their query fails. The accessible-by-all and
owner-access answers only select a diagnostic message. -/
def ProcessMemPool (q : PoolQueries) (pool : hsa_amd_memory_pool_t)
    (agent_info : AgentInformation) : Option (hsa_status_t × AgentInformation) :=
  match q.HSA_AMD_MEMORY_POOL_INFO_SEGMENT pool with
  | none => none
  | some segment =>
    if hsa_amd_segment_t.GLOBAL ≠ segment then
      some (hsa_status_t.HSA_STATUS_SUCCESS, agent_info)
    else
      let alloc : Bool := (q.HSA_AMD_MEMORY_POOL_INFO_RUNTIME_ALLOC_ALLOWED pool).getD false
      if alloc ≠ true then some (hsa_status_t.HSA_STATUS_SUCCESS, agent_info)
      else
        let max_size : Nat := (q.HSA_AMD_MEMORY_POOL_INFO_SIZE pool).getD 0
        let info1 := { agent_info with max_size_list := agent_info.max_size_list ++ [max_size] }
        let flag : Nat := (q.HSA_AMD_MEMORY_POOL_INFO_GLOBAL_FLAGS pool).getD 0
        let is_kernarg : Bool := (HSA_AMD_MEMORY_POOL_GLOBAL_FLAG_KERNARG_INIT &&& flag) != 0
        let info2 := if is_kernarg then { info1 with sys_pool := some pool } else info1
        some (hsa_status_t.HSA_STATUS_SUCCESS,
          { info2 with mem_pool_list := info2.mem_pool_list ++ [pool] })

/-- The runtime iterator `hsa_amd_agent_iterate_memory_pools(agent, ProcessMemPool, data)`
over the pools reported for the agent: the callback runs on each pool in order and
the traversal stops at the first status other than success, which is returned. -/
def hsa_amd_agent_iterate_memory_pools (q : PoolQueries) :
    List hsa_amd_memory_pool_t → AgentInformation → Option (hsa_status_t × AgentInformation)
  | [], info => some (hsa_status_t.HSA_STATUS_SUCCESS, info)
  | pool :: rest, info =>
    match ProcessMemPool q pool info with
    | none => none
    | some (hsa_status_t.HSA_STATUS_SUCCESS, info1) =>
      hsa_amd_agent_iterate_memory_pools q rest info1
    | some (st, info1) => some (st, info1)

/-! ## `InitAgents` -/

/-- What the platform reports during discovery. -/
structure Platform where
  /-- Whether `hsa_init()` succeeds. -/
  hsa_init : Bool
  /-- Whether `hsa_amd_profiling_async_copy_enable(true)` succeeds. -/
  hsa_amd_profiling_async_copy_enable : Bool
  /-- The agents, in the order `hsa_iterate_agents` visits them. -/
  agents : List hsa_agent_t
  agent_queries : AgentQueries
  /-- The pools `hsa_amd_agent_iterate_memory_pools` visits for an agent, in order. -/
  pools : hsa_agent_t → List hsa_amd_memory_pool_t
  pool_queries : PoolQueries

/-- The runtime iterator `hsa_iterate_agents(ProcessAgent, &agent_list)`: the callback
runs on each agent in order and the traversal stops at the first status other than
success, which is returned. -/
def hsa_iterate_agents (q : AgentQueries) :
    List hsa_agent_t → List AgentInformation → hsa_status_t × List AgentInformation
  | [], agent_l => (hsa_status_t.HSA_STATUS_SUCCESS, agent_l)
  | agent :: rest, agent_l =>
    match ProcessAgent q agent agent_l with
    | (hsa_status_t.HSA_STATUS_SUCCESS, agent_l1) => hsa_iterate_agents q rest agent_l1
    | (st, agent_l1) => (st, agent_l1)

/-- The loop `for (uint32_t i = 0; i < agent_list.size(); i++)` of `InitAgents`
(lines 391-399). The first argument counts the iterations left, the second is `i`. -/
def mem_pool_loop (P : Platform) : Nat → Nat → List AgentInformation →
    Option (List AgentInformation)
  | 0, _, agent_list => some agent_list
  | rem + 1, i, agent_list =>
    match agent_list[i]? with
    | none => none
    | some info =>
      match hsa_amd_agent_iterate_memory_pools P.pool_queries (P.pools info.agent) info with
      | none => none
      | some (hsa_status_t.HSA_STATUS_SUCCESS, info1) =>
        mem_pool_loop P rem (i + 1) (agent_list.set i info1)
      | some (_, info1) => some (agent_list.set i info1)

/-- The function `InitAgents()`, from the global `agent_list` before the call to the
global `agent_list` after it; `none` is undefined behaviour. -/
def InitAgents (P : Platform) (agent_list : List AgentInformation) :
    Option (List AgentInformation) :=
  if P.hsa_init = false then some agent_list
  else if P.hsa_amd_profiling_async_copy_enable = false then some agent_list
  else
    match hsa_iterate_agents P.agent_queries P.agents agent_list with
    | (hsa_status_t.HSA_STATUS_SUCCESS, agent_list1) =>
      mem_pool_loop P agent_list1.length 0 agent_list1
    | (_, agent_list1) => some agent_list1

/-! ## `test` -/

/-- How a call of `test` ends. -/
inductive TestResult
  | returned (code : Int)
  | out_of_range
  | blocked
  deriving DecidableEq, Repr

/-- The loop `while (hsa_signal_wait_acquire(...)) {}` of `test`, run for at most
`fuel` polls; `none` when the signal has not reached zero by then. -/
def wait_loop (rt : Runtime σ) (signal_fwd : hsa_signal_t) : Nat → World σ → Option (World σ)
  | 0, _ => none
  | fuel + 1, w =>
    let r := rt.hsa_signal_wait_acquire w.st signal_fwd
    if r.1 ≠ 0 then wait_loop rt signal_fwd fuel ⟨r.2, w.log⟩ else some ⟨r.2, w.log⟩

/-- The function `int test(int reps)`; `fuel` bounds the polls of the final wait loop. -/
def test (rt : Runtime σ) (agent_list : List AgentInformation) (_reps : Int) (fuel : Nat)
    (w : World σ) : TestResult × World σ :=
  let src_ix_fwd : Int := 2
  let dst_ix_fwd : Int := 9
  let Size : Nat := 1024
  match Allocate rt agent_list src_ix_fwd dst_ix_fwd Size w with
  | (AllocResult.out_of_range _ _, w1) => (TestResult.out_of_range, w1)
  | (AllocResult.failure, w1) => (TestResult.returned (-1), w1)
  | (AllocResult.success _ src_ptr_fwd _ dst_ptr_fwd, w1) =>
    match World.signal_create rt w1 with
    | (none, w2) =>
      (TestResult.returned (-1), World.free rt (World.free rt w2 src_ptr_fwd) dst_ptr_fwd)
    | (some signal_fwd, w2) =>
      let w3 : World σ := ⟨rt.hsa_signal_store_relaxed w2.st signal_fwd 1, w2.log⟩
      match agentAt agent_list dst_ix_fwd, agentAt agent_list src_ix_fwd with
      | some dst, some src =>
        match World.async_copy rt w3 dst_ptr_fwd dst.agent src_ptr_fwd src.agent Size
            signal_fwd with
        | (false, w4) => (TestResult.returned (-1), w4)
        | (true, w4) =>
          let w5 : World σ := ⟨(rt.hsa_signal_wait_acquire w4.st signal_fwd).2, w4.log⟩
          match wait_loop rt signal_fwd fuel w5 with
          | none => (TestResult.blocked, w5)
          | some w6 =>
            let w7 := (GetCopyTime rt w6 signal_fwd).2
            let w8 := World.free rt w7 src_ptr_fwd
            let w9 := World.free rt w8 dst_ptr_fwd
            (TestResult.returned 0, World.signal_destroy rt w9 signal_fwd)
      | _, _ => (TestResult.out_of_range, w3)

/-! ## Predicates used to state the properties -/

/-- Source half of a workable pair, for a runtime whose allocation answer is the
function `fa` of the pool and the size: `Size` does not exceed the recorded max
size of source pool `i` and allocation from source pool `i` succeeds. -/
def srcWorkable (fa : hsa_amd_memory_pool_t → Nat → Option Buffer)
    (src : AgentInformation) (Size i : Nat) : Prop :=
  (∃ m, src.max_size_list[i]? = some m ∧ Size ≤ m) ∧
  ∃ p, src.mem_pool_list[i]? = some p ∧ ∃ b, fa p Size = some b

/-- Destination half of a workable pair, for a runtime whose answers are the
functions `fa` (allocation), `fq` (access of an agent to a pool) and `fg` (grant):
`Size` does not exceed the recorded max size of destination pool `j`, the access of
the source agent to destination pool `j` is not never-allowed, allocation from
destination pool `j` succeeds, and the grant of the source agent on the
destination buffer succeeds. -/
def dstWorkable (fa : hsa_amd_memory_pool_t → Nat → Option Buffer)
    (fq : hsa_agent_t → hsa_amd_memory_pool_t → hsa_amd_memory_pool_access_t)
    (fg : hsa_agent_t → Buffer → Bool) (src dst : AgentInformation) (Size j : Nat) : Prop :=
  (∃ m, dst.max_size_list[j]? = some m ∧ Size ≤ m) ∧
  ∃ q, dst.mem_pool_list[j]? = some q ∧
    fq src.agent q ≠ hsa_amd_memory_pool_access_t.NEVER_ALLOWED ∧
    ∃ db, fa q Size = some db ∧ fg src.agent db = true

/-- The pair `(i, j)` of a source pool index and a destination pool index is workable. -/
def workable (fa : hsa_amd_memory_pool_t → Nat → Option Buffer)
    (fq : hsa_agent_t → hsa_amd_memory_pool_t → hsa_amd_memory_pool_access_t)
    (fg : hsa_agent_t → Buffer → Bool) (src dst : AgentInformation) (Size i j : Nat) : Prop :=
  srcWorkable fa src Size i ∧ dstWorkable fa fq fg src dst Size j

/-- The pool is reported in the global segment and as permitting runtime allocation. -/
def eligible (q : PoolQueries) (pool : hsa_amd_memory_pool_t) : Bool :=
  q.HSA_AMD_MEMORY_POOL_INFO_SEGMENT pool == some hsa_amd_segment_t.GLOBAL &&
    q.HSA_AMD_MEMORY_POOL_INFO_RUNTIME_ALLOC_ALLOWED pool == some true

/-- The max allocatable size the size query leaves in `max_size`: the answer of the
query, or the initial `0` when the query fails. -/
def queried_max_size (q : PoolQueries) (pool : hsa_amd_memory_pool_t) : Nat :=
  (q.HSA_AMD_MEMORY_POOL_INFO_SIZE pool).getD 0

/-! ## Concrete platforms and runtimes -/

/-- A runtime without internal state, given by its answers to allocation, access
query and grant, and by whether the asynchronous copy can be issued. Signal
creation yields signal `1`; the copy completes at once with timestamps `(0, 0)`. -/
def stateless_runtime (fa : hsa_amd_memory_pool_t → Nat → Option Buffer)
    (fq : hsa_agent_t → hsa_amd_memory_pool_t → Option hsa_amd_memory_pool_access_t)
    (fg : hsa_agent_t → Buffer → Bool) (copy_ok : Bool) : Runtime Unit where
  hsa_amd_memory_pool_allocate := fun s p n => (fa p n, s)
  hsa_amd_agent_memory_pool_get_info := fun s a p => (fq a p, s)
  hsa_amd_agents_allow_access := fun s a b => (fg a b, s)
  hsa_amd_memory_pool_free := fun s _ => s
  hsa_signal_create := fun s => (some 1, s)
  hsa_signal_store_relaxed := fun s _ _ => s
  hsa_amd_memory_async_copy := fun s _ _ _ _ _ _ => (copy_ok, s)
  hsa_signal_wait_acquire := fun s _ => (0, s)
  hsa_amd_profiling_get_async_copy_time := fun s _ => (some (0, 0), s)
  hsa_signal_destroy := fun s _ => s

/-- The world before any runtime call. -/
def start : World Unit := ⟨(), []⟩

/-- Allocation from pool `p` yields the buffer at address `10 * p`. -/
def alloc_ok : hsa_amd_memory_pool_t → Nat → Option Buffer := fun p _ => some (p * 10)

/-- An agent record with the given handle, device type, pools and max sizes. -/
def agent_record (agent : hsa_agent_t) (device_type : String)
    (pools : List hsa_amd_memory_pool_t) (sizes : List Nat) : AgentInformation :=
  { agent := agent, agent_name := "", agent_device_type := device_type, node := 0,
    sys_pool := none, mem_pool_list := pools, max_size_list := sizes }

/-- Two GPU agents with one pool each; every permission query fails. -/
def query_fails_registry : List AgentInformation :=
  [agent_record 1 "GPU" [10] [4096], agent_record 2 "GPU" [20] [4096]]

def query_fails_runtime : Runtime Unit :=
  stateless_runtime alloc_ok (fun _ _ => none) (fun _ _ => true) true

/-- Source agent for the first-fit search: pool 10 is too small for 1024 bytes. -/
def first_fit_src : AgentInformation := agent_record 1 "GPU" [10, 11, 12] [512, 4096, 4096]

/-- Destination agent for the first-fit search; the source agent may never access pool 20. -/
def first_fit_dst : AgentInformation := agent_record 2 "GPU" [20, 21, 22] [4096, 4096, 4096]

def first_fit_access : hsa_agent_t → hsa_amd_memory_pool_t → hsa_amd_memory_pool_access_t :=
  fun _ p => if p = 20 then hsa_amd_memory_pool_access_t.NEVER_ALLOWED
    else hsa_amd_memory_pool_access_t.ALLOWED_BY_DEFAULT

def first_fit_grant : hsa_agent_t → Buffer → Bool := fun _ _ => true

def first_fit_runtime : Runtime Unit :=
  stateless_runtime alloc_ok (fun a p => some (first_fit_access a p)) first_fit_grant true

/-- A CPU source agent with two pools and a GPU destination agent with two pools. -/
def cpu_source_registry : List AgentInformation :=
  [agent_record 1 "CPU" [10, 11] [4096, 4096], agent_record 2 "GPU" [20, 21] [4096, 4096]]

/-- No agent may ever access pool 10; every other access is allowed. -/
def cpu_source_runtime : Runtime Unit :=
  stateless_runtime alloc_ok
    (fun _ p => if p = 10 then some hsa_amd_memory_pool_access_t.NEVER_ALLOWED
      else some hsa_amd_memory_pool_access_t.ALLOWED_BY_DEFAULT)
    (fun _ _ => true) true

/-- Two agents with one pool of max size 512 each. -/
def small_pool_src : AgentInformation := agent_record 1 "GPU" [10] [512]
def small_pool_dst : AgentInformation := agent_record 2 "GPU" [20] [512]

def allow_all_runtime : Runtime Unit :=
  stateless_runtime alloc_ok (fun _ _ => some hsa_amd_memory_pool_access_t.ALLOWED_BY_DEFAULT)
    (fun _ _ => true) true

/-- A CPU source agent with one pool and a GPU destination agent with two pools. -/
def short_source_registry : List AgentInformation :=
  [agent_record 1 "CPU" [10] [4096], agent_record 2 "GPU" [20, 21] [4096, 4096]]

def never_allowed_runtime : Runtime Unit :=
  stateless_runtime alloc_ok (fun _ _ => some hsa_amd_memory_pool_access_t.NEVER_ALLOWED)
    (fun _ _ => true) true

/-- Ten agents; the agents at indices 2 and 9, which `test` uses, have one pool each. -/
def ten_agent_registry : List AgentInformation :=
  [agent_record 0 "CPU" [] [], agent_record 1 "CPU" [] [], agent_record 2 "GPU" [10] [4096],
   agent_record 3 "GPU" [] [], agent_record 4 "GPU" [] [], agent_record 5 "GPU" [] [],
   agent_record 6 "GPU" [] [], agent_record 7 "GPU" [] [], agent_record 8 "GPU" [] [],
   agent_record 9 "GPU" [20] [4096]]

/-- Everything succeeds except issuing the asynchronous copy. -/
def copy_fails_runtime : Runtime Unit :=
  stateless_runtime alloc_ok (fun _ _ => some hsa_amd_memory_pool_access_t.ALLOWED_BY_DEFAULT)
    (fun _ _ => true) false

/-- Every agent is a GPU on node 3 named gfx900; the name query fails for agent 8. -/
def sample_agent_queries : AgentQueries where
  HSA_AGENT_INFO_NAME := fun a => if a = 8 then none else some ("gfx900")
  HSA_AGENT_INFO_DEVICE := fun _ => some HSA_DEVICE_TYPE_GPU
  HSA_AGENT_INFO_NODE := fun _ => some 3

/-- Pools 1 and 4 are global and allocatable (sizes 100 and 250), pool 2 is in the
group segment, pool 3 is global and not allocatable. -/
def sample_pool_queries : PoolQueries where
  HSA_AMD_MEMORY_POOL_INFO_SEGMENT := fun p =>
    if p = 2 then some hsa_amd_segment_t.GROUP else some hsa_amd_segment_t.GLOBAL
  HSA_AMD_MEMORY_POOL_INFO_RUNTIME_ALLOC_ALLOWED := fun p => some (decide (p ≠ 3))
  HSA_AMD_MEMORY_POOL_INFO_SIZE := fun p => some (p * 50 + 50)
  HSA_AMD_MEMORY_POOL_INFO_ACCESSIBLE_BY_ALL := fun _ => some false
  HSA_AMD_AGENT_MEMORY_POOL_INFO_ACCESS := fun _ _ =>
    some hsa_amd_memory_pool_access_t.ALLOWED_BY_DEFAULT
  HSA_AMD_MEMORY_POOL_INFO_GLOBAL_FLAGS := fun p => some (if p = 4 then 1 else 0)

/-- The platform reports agents 7, 8 and 9, in this order, with four pools each. -/
def sample_platform : Platform where
  hsa_init := true
  hsa_amd_profiling_async_copy_enable := true
  agents := [7, 8, 9]
  agent_queries := sample_agent_queries
  pools := fun _ => [1, 2, 3, 4]
  pool_queries := sample_pool_queries

/-! ## Theorems -/

/-- A list read past the end stays past the end at larger indices. -/
theorem getElem?_none_of_le {α : Type} (xs : List α) {j k : Nat}
    (h : xs[j]? = none) (hjk : j ≤ k) : xs[k]? = none := by
  rw [List.getElem?_eq_none_iff] at h ⊢
  omega

/-- First fit in the destination loop, for a non-CPU source agent and a runtime with
argument-determined answers: from index `j` on, the loop either returns success at
the least destination-workable index, or no destination index from `j` on is
workable and the loop runs out or stops on an out-of-range read. -/
theorem dst_pool_loop_first_fit (rt : Runtime σ)
    (fa : hsa_amd_memory_pool_t → Nat → Option Buffer)
    (fq : hsa_agent_t → hsa_amd_memory_pool_t → hsa_amd_memory_pool_access_t)
    (fg : hsa_agent_t → Buffer → Bool) (src dst : AgentInformation) (Size i : Nat)
    (srcbuff : Buffer) (spool : hsa_amd_memory_pool_t)
    (hsp : src.mem_pool_list[i]? = some spool)
    (hcpu : src.agent_device_type ≠ "CPU")
    (hA : ∀ s p n, (rt.hsa_amd_memory_pool_allocate s p n).1 = fa p n)
    (hQ : ∀ s a p, (rt.hsa_amd_agent_memory_pool_get_info s a p).1 = some (fq a p))
    (hG : ∀ s a b, (rt.hsa_amd_agents_allow_access s a b).1 = fg a b) :
    ∀ (rem j : Nat) (w : World σ), j + rem = dst.mem_pool_list.length →
      (∃ j0 dp db, j ≤ j0 ∧ dstWorkable fa fq fg src dst Size j0 ∧
          (∀ k, j ≤ k → k < j0 → ¬ dstWorkable fa fq fg src dst Size k) ∧
          dst.mem_pool_list[j0]? = some dp ∧
          (dst_pool_loop rt src dst Size i srcbuff rem j w).1
            = LoopExit.returned (AllocResult.success spool srcbuff dp db)) ∨
      ((∀ k, j ≤ k → ¬ dstWorkable fa fq fg src dst Size k) ∧
          ((dst_pool_loop rt src dst Size i srcbuff rem j w).1 = LoopExit.fallthrough ∨
           ∃ k n, (dst_pool_loop rt src dst Size i srcbuff rem j w).1
             = LoopExit.returned (AllocResult.out_of_range k n))) := by
  intro rem
  induction rem with
  | zero =>
    intro j w hj
    right
    refine ⟨?_, Or.inl rfl⟩
    intro k hk hw
    obtain ⟨_, q, hq, _⟩ := hw
    have : dst.mem_pool_list[k]? = none := by
      rw [List.getElem?_eq_none_iff]; omega
    rw [this] at hq
    exact Option.noConfusion hq
  | succ rem ih =>
    intro j w hj
    -- every continuation of the loop body at `j` reduces to the loop at `j + 1`
    have step : ∀ w1 : World σ, ¬ dstWorkable fa fq fg src dst Size j →
        (∃ j0 dp db, j ≤ j0 ∧ dstWorkable fa fq fg src dst Size j0 ∧
          (∀ k, j ≤ k → k < j0 → ¬ dstWorkable fa fq fg src dst Size k) ∧
          dst.mem_pool_list[j0]? = some dp ∧
          (dst_pool_loop rt src dst Size i srcbuff rem (j + 1) w1).1
            = LoopExit.returned (AllocResult.success spool srcbuff dp db)) ∨
        ((∀ k, j ≤ k → ¬ dstWorkable fa fq fg src dst Size k) ∧
          ((dst_pool_loop rt src dst Size i srcbuff rem (j + 1) w1).1 = LoopExit.fallthrough ∨
           ∃ k n, (dst_pool_loop rt src dst Size i srcbuff rem (j + 1) w1).1
             = LoopExit.returned (AllocResult.out_of_range k n))) := by
      intro w1 hnot
      rcases ih (j + 1) w1 (by omega) with ⟨j0, dp, db, hle, hw, hmin, hdp, hres⟩ | ⟨hall, hres⟩
      · left
        refine ⟨j0, dp, db, by omega, hw, ?_, hdp, hres⟩
        intro k hk hk0
        rcases Nat.eq_or_lt_of_le hk with h | h
        · subst h; exact hnot
        · exact hmin k h hk0
      · right
        refine ⟨?_, hres⟩
        intro k hk
        rcases Nat.eq_or_lt_of_le hk with h | h
        · subst h; exact hnot
        · exact hall k h
    unfold dst_pool_loop
    cases hmax : dst.max_size_list[j]? with
    | none =>
      right
      refine ⟨?_, Or.inr ⟨_, _, rfl⟩⟩
      intro k hk hw
      obtain ⟨⟨m, hm, _⟩, _⟩ := hw
      rw [getElem?_none_of_le _ hmax hk] at hm
      exact Option.noConfusion hm
    | some dmax =>
      simp only []
      by_cases hsz : Size > dmax
      · rw [if_pos hsz]
        apply step
        rintro ⟨⟨m, hm, hle⟩, _⟩
        rw [hmax] at hm
        cases hm
        omega
      · rw [if_neg hsz, if_neg hcpu]
        cases hdp : dst.mem_pool_list[j]? with
        | none =>
          right
          refine ⟨?_, Or.inr ⟨_, _, rfl⟩⟩
          intro k hk hw
          obtain ⟨_, q, hq, _⟩ := hw
          rw [getElem?_none_of_le _ hdp hk] at hq
          exact Option.noConfusion hq
        | some dpool =>
          simp only [Option.map_some', World.get_access, hQ]
          by_cases hacc : fq src.agent dpool = hsa_amd_memory_pool_access_t.NEVER_ALLOWED
          · rw [if_pos hacc]
            apply step
            rintro ⟨_, q, hq, hne, _⟩
            rw [hdp] at hq
            cases hq
            exact hne hacc
          · rw [if_neg hacc]
            simp only [World.allocate, hA, if_neg hcpu, World.allow_access, hG]
            cases hfa : fa dpool Size with
            | none =>
              simp only []
              apply step
              rintro ⟨_, q, hq, _, db, hdb, _⟩
              rw [hdp] at hq
              cases hq
              rw [hfa] at hdb
              exact Option.noConfusion hdb
            | some dstbuff =>
              simp only []
              cases hfg : fg src.agent dstbuff with
              | false =>
                simp only []
                apply step
                rintro ⟨_, q, hq, _, db, hdb, hgr⟩
                rw [hdp] at hq
                cases hq
                rw [hfa] at hdb
                cases hdb
                rw [hfg] at hgr
                exact Bool.noConfusion hgr
              | true =>
                simp only [hsp]
                left
                refine ⟨j, dpool, dstbuff, le_refl _, ?_, ?_, hdp, rfl⟩
                · exact ⟨⟨dmax, hmax, by omega⟩, dpool, hdp, hacc, dstbuff, hfa, hfg⟩
                · intro k hk hk0
                  omega

/-- First fit in the source loop: from index `i` on, the loop either returns success
at the lexicographically least workable pair, or no pair from `i` on is workable and
the result is not a success. -/
theorem src_pool_loop_first_fit (rt : Runtime σ)
    (fa : hsa_amd_memory_pool_t → Nat → Option Buffer)
    (fq : hsa_agent_t → hsa_amd_memory_pool_t → hsa_amd_memory_pool_access_t)
    (fg : hsa_agent_t → Buffer → Bool) (src dst : AgentInformation) (Size : Nat)
    (hcpu : src.agent_device_type ≠ "CPU")
    (hA : ∀ s p n, (rt.hsa_amd_memory_pool_allocate s p n).1 = fa p n)
    (hQ : ∀ s a p, (rt.hsa_amd_agent_memory_pool_get_info s a p).1 = some (fq a p))
    (hG : ∀ s a b, (rt.hsa_amd_agents_allow_access s a b).1 = fg a b) :
    ∀ (rem i : Nat) (w : World σ), i + rem = src.mem_pool_list.length →
      (∃ i0 j0 sp sb dp db, workable fa fq fg src dst Size i0 j0 ∧
          (∀ a b, i ≤ a → workable fa fq fg src dst Size a b → i0 < a ∨ (i0 = a ∧ j0 ≤ b)) ∧
          src.mem_pool_list[i0]? = some sp ∧ dst.mem_pool_list[j0]? = some dp ∧
          (src_pool_loop rt src dst Size rem i w).1 = AllocResult.success sp sb dp db) ∨
      ((∀ a b, i ≤ a → ¬ workable fa fq fg src dst Size a b) ∧
          ((src_pool_loop rt src dst Size rem i w).1 = AllocResult.failure ∨
           ∃ k n, (src_pool_loop rt src dst Size rem i w).1 = AllocResult.out_of_range k n)) := by
  intro rem
  induction rem with
  | zero =>
    intro i w hi
    right
    refine ⟨?_, Or.inl rfl⟩
    rintro a b ha ⟨⟨_, p, hp, _⟩, _⟩
    have : src.mem_pool_list[a]? = none := by
      rw [List.getElem?_eq_none_iff]; omega
    rw [this] at hp
    exact Option.noConfusion hp
  | succ rem ih =>
    intro i w hi
    have step : ∀ w1 : World σ, (∀ b, ¬ workable fa fq fg src dst Size i b) →
        (∃ i0 j0 sp sb dp db, workable fa fq fg src dst Size i0 j0 ∧
          (∀ a b, i ≤ a → workable fa fq fg src dst Size a b → i0 < a ∨ (i0 = a ∧ j0 ≤ b)) ∧
          src.mem_pool_list[i0]? = some sp ∧ dst.mem_pool_list[j0]? = some dp ∧
          (src_pool_loop rt src dst Size rem (i + 1) w1).1 = AllocResult.success sp sb dp db) ∨
        ((∀ a b, i ≤ a → ¬ workable fa fq fg src dst Size a b) ∧
          ((src_pool_loop rt src dst Size rem (i + 1) w1).1 = AllocResult.failure ∨
           ∃ k n, (src_pool_loop rt src dst Size rem (i + 1) w1).1
             = AllocResult.out_of_range k n)) := by
      intro w1 hnot
      rcases ih (i + 1) w1 (by omega) with
        ⟨i0, j0, sp, sb, dp, db, hw, hmin, hsp, hdp, hres⟩ | ⟨hall, hres⟩
      · left
        refine ⟨i0, j0, sp, sb, dp, db, hw, ?_, hsp, hdp, hres⟩
        intro a b ha hab
        rcases Nat.eq_or_lt_of_le ha with h | h
        · subst h; exact absurd hab (hnot b)
        · exact hmin a b h hab
      · right
        refine ⟨?_, hres⟩
        intro a b ha
        rcases Nat.eq_or_lt_of_le ha with h | h
        · subst h; exact hnot b
        · exact hall a b h
    unfold src_pool_loop
    cases hmax : src.max_size_list[i]? with
    | none =>
      right
      refine ⟨?_, Or.inr ⟨_, _, rfl⟩⟩
      rintro a b ha ⟨⟨⟨m, hm, _⟩, _⟩, _⟩
      rw [getElem?_none_of_le _ hmax ha] at hm
      exact Option.noConfusion hm
    | some smax =>
      simp only []
      by_cases hsz : Size > smax
      · rw [if_pos hsz]
        apply step
        rintro b ⟨⟨⟨m, hm, hle⟩, _⟩, _⟩
        rw [hmax] at hm
        cases hm
        omega
      · rw [if_neg hsz]
        cases hsp : src.mem_pool_list[i]? with
        | none =>
          right
          refine ⟨?_, Or.inr ⟨_, _, rfl⟩⟩
          rintro a b ha ⟨⟨_, p, hp, _⟩, _⟩
          rw [getElem?_none_of_le _ hsp ha] at hp
          exact Option.noConfusion hp
        | some spool =>
          simp only [World.allocate, hA]
          cases hfa : fa spool Size with
          | none =>
            simp only []
            apply step
            rintro b ⟨⟨_, p, hp, sb, hsb⟩, _⟩
            rw [hsp] at hp
            cases hp
            rw [hfa] at hsb
            exact Option.noConfusion hsb
          | some srcbuff =>
            simp only []
            have hsrc : srcWorkable fa src Size i :=
              ⟨⟨smax, hmax, by omega⟩, spool, hsp, srcbuff, hfa⟩
            rcases dst_pool_loop_first_fit rt fa fq fg src dst Size i srcbuff spool hsp hcpu
                hA hQ hG dst.mem_pool_list.length 0
                ⟨(rt.hsa_amd_memory_pool_allocate w.st spool Size).2,
                  w.log ++ [Event.allocate spool Size (some srcbuff)]⟩ (by omega) with
              ⟨j0, dp, db, _, hw, hmin, hdp, hres⟩ | ⟨hall, hres | ⟨k, n, hres⟩⟩
            · left
              refine ⟨i, j0, spool, srcbuff, dp, db, ⟨hsrc, hw⟩, ?_, hsp, hdp, ?_⟩
              · intro a b ha hab
                rcases Nat.eq_or_lt_of_le ha with h | h
                · subst h
                  right
                  refine ⟨rfl, ?_⟩
                  by_contra hlt
                  exact hmin b (Nat.zero_le _) (by omega) hab.2
                · exact Or.inl h
              · generalize dst_pool_loop rt src dst Size i srcbuff dst.mem_pool_list.length 0
                  ⟨(rt.hsa_amd_memory_pool_allocate w.st spool Size).2,
                    w.log ++ [Event.allocate spool Size (some srcbuff)]⟩ = out at hres ⊢
                obtain ⟨o1, o2⟩ := out
                simp only at hres
                subst hres
                rfl
            · -- no destination pool works: the source buffer is freed, next source pool
              generalize dst_pool_loop rt src dst Size i srcbuff dst.mem_pool_list.length 0
                  ⟨(rt.hsa_amd_memory_pool_allocate w.st spool Size).2,
                    w.log ++ [Event.allocate spool Size (some srcbuff)]⟩ = out at hres ⊢
              obtain ⟨o1, o2⟩ := out
              simp only at hres
              subst hres
              simp only []
              rcases ih (i + 1) (World.free rt o2 srcbuff) (by omega) with
                ⟨i0, j0, sp, sb, dp, db, hw, _⟩ | ⟨_, hres⟩
              · exact absurd hw.2 (hall j0 (Nat.zero_le _))
              · right
                exact ⟨fun a b _ hab => hall b (Nat.zero_le _) hab.2, hres⟩
            · generalize dst_pool_loop rt src dst Size i srcbuff dst.mem_pool_list.length 0
                  ⟨(rt.hsa_amd_memory_pool_allocate w.st spool Size).2,
                    w.log ++ [Event.allocate spool Size (some srcbuff)]⟩ = out at hres ⊢
              obtain ⟨o1, o2⟩ := out
              simp only at hres
              subst hres
              right
              exact ⟨fun a b _ hab => hall b (Nat.zero_le _) hab.2, Or.inr ⟨k, n, rfl⟩⟩

/-- Claim C2: for a source agent whose device type is not CPU, and a runtime whose
answers depend only on their arguments (`fa`, `fq`, `fg`) and whose permission
queries never fail, `Allocate` returns 0 if and only if some workable pair exists,
and when it returns 0 the pools written to `*pSrcPool` and `*pDstPool` are the pools
at the lexicographically least workable pair `(i, j)`. -/
theorem Allocate_first_fit (rt : Runtime σ)
    (fa : hsa_amd_memory_pool_t → Nat → Option Buffer)
    (fq : hsa_agent_t → hsa_amd_memory_pool_t → hsa_amd_memory_pool_access_t)
    (fg : hsa_agent_t → Buffer → Bool)
    (agent_list : List AgentInformation) (SrcAgent DstAgent : Int) (Size : Nat) (w : World σ)
    (src dst : AgentInformation)
    (hsrc : agentAt agent_list SrcAgent = some src)
    (hdst : agentAt agent_list DstAgent = some dst)
    (hcpu : src.agent_device_type ≠ "CPU")
    (hA : ∀ s p n, (rt.hsa_amd_memory_pool_allocate s p n).1 = fa p n)
    (hQ : ∀ s a p, (rt.hsa_amd_agent_memory_pool_get_info s a p).1 = some (fq a p))
    (hG : ∀ s a b, (rt.hsa_amd_agents_allow_access s a b).1 = fg a b) :
    ((∃ sp sb dp db, (Allocate rt agent_list SrcAgent DstAgent Size w).1
          = AllocResult.success sp sb dp db) ↔
        ∃ i j, workable fa fq fg src dst Size i j) ∧
    (∀ sp sb dp db, (Allocate rt agent_list SrcAgent DstAgent Size w).1
          = AllocResult.success sp sb dp db →
        ∃ i j, workable fa fq fg src dst Size i j ∧
          (∀ a b, workable fa fq fg src dst Size a b → i < a ∨ (i = a ∧ j ≤ b)) ∧
          src.mem_pool_list[i]? = some sp ∧ dst.mem_pool_list[j]? = some dp) := by
  have hrun : (Allocate rt agent_list SrcAgent DstAgent Size w)
      = src_pool_loop rt src dst Size src.mem_pool_list.length 0 w := by
    unfold Allocate
    rw [hsrc, hdst]
  rw [hrun]
  rcases src_pool_loop_first_fit rt fa fq fg src dst Size hcpu hA hQ hG
      src.mem_pool_list.length 0 w (by omega) with
    ⟨i0, j0, sp0, sb0, dp0, db0, hw, hmin, hsp, hdp, hres⟩ | ⟨hall, hres⟩
  · refine ⟨⟨fun _ => ⟨i0, j0, hw⟩, fun _ => ⟨sp0, sb0, dp0, db0, hres⟩⟩, ?_⟩
    intro sp sb dp db h
    rw [hres] at h
    cases h
    exact ⟨i0, j0, hw, fun a b hab => hmin a b (Nat.zero_le _) hab, hsp, hdp⟩
  · have hno : ∀ sp sb dp db, (src_pool_loop rt src dst Size src.mem_pool_list.length 0 w).1
          ≠ AllocResult.success sp sb dp db := by
      intro sp sb dp db h
      rcases hres with hres | ⟨k, n, hres⟩ <;> rw [hres] at h <;> cases h
    refine ⟨⟨?_, ?_⟩, ?_⟩
    · rintro ⟨sp, sb, dp, db, h⟩
      exact absurd h (hno sp sb dp db)
    · rintro ⟨i, j, hw⟩
      exact absurd hw (hall i j (Nat.zero_le _))
    · intro sp sb dp db h
      exact absurd h (hno sp sb dp db)

/-- A success returned by the destination loop names the source pool at index `i` and
a destination pool whose recorded max size is at least `Size`. -/
theorem dst_pool_loop_success (rt : Runtime σ) (src dst : AgentInformation) (Size i : Nat)
    (srcbuff : Buffer) (sp : hsa_amd_memory_pool_t) (sb : Buffer) (dp : hsa_amd_memory_pool_t)
    (db : Buffer) :
    ∀ (rem j : Nat) (w : World σ),
      (dst_pool_loop rt src dst Size i srcbuff rem j w).1
        = LoopExit.returned (AllocResult.success sp sb dp db) →
      src.mem_pool_list[i]? = some sp ∧
      ∃ (j0 : Nat) (md : Nat), dst.mem_pool_list[j0]? = some dp ∧ dst.max_size_list[j0]? = some md ∧ Size ≤ md := by
  intro rem
  induction rem with
  | zero =>
    intro j w h
    simp [dst_pool_loop] at h
  | succ rem ih =>
    intro j w h
    unfold dst_pool_loop at h
    split at h
    · simp at h
    · rename_i dmax hmax
      split at h
      · exact ih _ _ h
      · rename_i hsz
        split at h
        · simp at h
        · split at h
          · simp at h
          · split at h
            · exact ih _ _ h
            · split at h
              · simp at h
              · rename_i dpool hdp
                split at h
                · exact ih _ _ h
                · split at h
                  · exact ih _ _ h
                  · split at h
                    · simp at h
                    · rename_i spool hsp
                      simp only [LoopExit.returned.injEq, AllocResult.success.injEq] at h
                      obtain ⟨h1, h2, h3, h4⟩ := h
                      subst h1 h3
                      exact ⟨hsp, j, dmax, hdp, hmax, by omega⟩

/-- When every destination max size is below `Size`, the destination loop skips every
pool without calling the runtime. -/
theorem dst_pool_loop_too_small (rt : Runtime σ) (src dst : AgentInformation) (Size i : Nat)
    (srcbuff : Buffer) (hsmall : ∀ m ∈ dst.max_size_list, m < Size) :
    ∀ (rem j : Nat) (w : World σ), j + rem ≤ dst.max_size_list.length →
      dst_pool_loop rt src dst Size i srcbuff rem j w = (LoopExit.fallthrough, w) := by
  intro rem
  induction rem with
  | zero => intro j w _; rfl
  | succ rem ih =>
    intro j w hj
    have hlt : j < dst.max_size_list.length := by omega
    unfold dst_pool_loop
    rw [List.getElem?_eq_getElem hlt]
    simp only []
    rw [if_pos (hsmall _ (List.getElem_mem hlt))]
    exact ih _ _ (by omega)

/-- A success returned by the source loop names pools of the two lists whose recorded
max sizes are at least `Size`. -/
theorem src_pool_loop_success (rt : Runtime σ) (src dst : AgentInformation) (Size : Nat)
    (sp : hsa_amd_memory_pool_t) (sb : Buffer) (dp : hsa_amd_memory_pool_t) (db : Buffer) :
    ∀ (rem i : Nat) (w : World σ),
      (src_pool_loop rt src dst Size rem i w).1 = AllocResult.success sp sb dp db →
      (∃ (i0 : Nat) (ms : Nat), src.mem_pool_list[i0]? = some sp ∧ src.max_size_list[i0]? = some ms ∧ Size ≤ ms) ∧
      ∃ (j0 : Nat) (md : Nat), dst.mem_pool_list[j0]? = some dp ∧ dst.max_size_list[j0]? = some md ∧ Size ≤ md := by
  intro rem
  induction rem with
  | zero =>
    intro i w h
    simp [src_pool_loop] at h
  | succ rem ih =>
    intro i w h
    unfold src_pool_loop at h
    split at h
    · simp at h
    · rename_i smax hmax
      split at h
      · exact ih _ _ h
      · rename_i hsz
        split at h
        · simp at h
        · split at h
          · exact ih _ _ h
          · rename_i srcbuff w1 hal
            split at h
            · rename_i r w2 hloop
              simp only at h
              subst h
              have := dst_pool_loop_success rt src dst Size i srcbuff sp sb dp db _ _ _
                (by rw [hloop])
              exact ⟨⟨i, smax, this.1, hmax, by omega⟩, this.2⟩
            · exact ih _ _ h

/-- When `Size` exceeds every max size on one side, the source loop ends in `return -1`. -/
theorem src_pool_loop_too_small (rt : Runtime σ) (src dst : AgentInformation) (Size : Nat)
    (hal : src.mem_pool_list.length = src.max_size_list.length)
    (hdl : dst.mem_pool_list.length = dst.max_size_list.length)
    (hsmall : (∀ m ∈ src.max_size_list, m < Size) ∨ (∀ m ∈ dst.max_size_list, m < Size)) :
    ∀ (rem i : Nat) (w : World σ), i + rem ≤ src.mem_pool_list.length →
      (src_pool_loop rt src dst Size rem i w).1 = AllocResult.failure := by
  intro rem
  induction rem with
  | zero => intro i w _; rfl
  | succ rem ih =>
    intro i w hi
    have hlt : i < src.max_size_list.length := by omega
    have hlt2 : i < src.mem_pool_list.length := by omega
    unfold src_pool_loop
    rw [List.getElem?_eq_getElem hlt, List.getElem?_eq_getElem hlt2]
    simp only []
    split
    · exact ih _ _ (by omega)
    · rename_i hsz
      rcases hsmall with hs | hd
      · exact absurd (hs _ (List.getElem_mem hlt)) (by omega)
      · split
        · exact ih _ _ (by omega)
        · rw [dst_pool_loop_too_small rt src dst Size i _ hd _ _ _ (by omega)]
          exact ih _ _ (by omega)

/-- When the three queries succeed, `ProcessAgent` appends one record with the agent
handle and empty pool lists. -/
theorem ProcessAgent_ok (q : AgentQueries) (b : hsa_agent_t) (l : List AgentInformation)
    (h : (q.HSA_AGENT_INFO_NAME b).isSome = true ∧ (q.HSA_AGENT_INFO_DEVICE b).isSome = true ∧
      (q.HSA_AGENT_INFO_NODE b).isSome = true) :
    ∃ r : AgentInformation, ProcessAgent q b l = (hsa_status_t.HSA_STATUS_SUCCESS, l ++ [r]) ∧
      r.agent = b ∧ r.mem_pool_list = [] ∧ r.max_size_list = [] := by
  obtain ⟨h1, h2, h3⟩ := h
  obtain ⟨n, hn⟩ := Option.isSome_iff_exists.mp h1
  obtain ⟨d, hd⟩ := Option.isSome_iff_exists.mp h2
  obtain ⟨k, hk⟩ := Option.isSome_iff_exists.mp h3
  unfold ProcessAgent
  simp only [hn, hd, hk]
  exact ⟨_, rfl, rfl, rfl, rfl⟩

/-- When one of the three queries fails, `ProcessAgent` returns an error and leaves the
list unchanged. -/
theorem ProcessAgent_fail (q : AgentQueries) (a : hsa_agent_t) (l : List AgentInformation)
    (h : q.HSA_AGENT_INFO_NAME a = none ∨ q.HSA_AGENT_INFO_DEVICE a = none ∨
      q.HSA_AGENT_INFO_NODE a = none) :
    ProcessAgent q a l = (hsa_status_t.HSA_STATUS_ERROR, l) := by
  unfold ProcessAgent
  rcases h with h | h | h
  · simp only [h]
  · cases hn : q.HSA_AGENT_INFO_NAME a <;> simp only [h]
  · cases hn : q.HSA_AGENT_INFO_NAME a <;> cases hd : q.HSA_AGENT_INFO_DEVICE a <;> simp only [h]

/-- The agent traversal stops at the first agent with a failing query, having appended
one record for each agent before it. -/
theorem hsa_iterate_agents_abort (q : AgentQueries) (a : hsa_agent_t) (post : List hsa_agent_t)
    (hfail : q.HSA_AGENT_INFO_NAME a = none ∨ q.HSA_AGENT_INFO_DEVICE a = none ∨
      q.HSA_AGENT_INFO_NODE a = none) :
    ∀ (pre : List hsa_agent_t) (l : List AgentInformation),
      (∀ b ∈ pre, (q.HSA_AGENT_INFO_NAME b).isSome = true ∧
        (q.HSA_AGENT_INFO_DEVICE b).isSome = true ∧ (q.HSA_AGENT_INFO_NODE b).isSome = true) →
      ∃ recs : List AgentInformation,
        hsa_iterate_agents q (pre ++ a :: post) l = (hsa_status_t.HSA_STATUS_ERROR, l ++ recs) ∧
        recs.map (fun r => r.agent) = pre ∧
        ∀ r ∈ recs, r.mem_pool_list = [] ∧ r.max_size_list = [] := by
  intro pre
  induction pre with
  | nil =>
    intro l _
    refine ⟨[], ?_, rfl, by simp⟩
    simp only [List.nil_append, hsa_iterate_agents, ProcessAgent_fail q a l hfail,
      List.append_nil]
  | cons b pre ih =>
    intro l hpre
    obtain ⟨r, hr, hra, hrl⟩ := ProcessAgent_ok q b l (hpre b (List.mem_cons_self _ _))
    obtain ⟨recs, hrecs, hmap, hall⟩ :=
      ih (l ++ [r]) (fun c hc => hpre c (List.mem_cons_of_mem _ hc))
    refine ⟨r :: recs, ?_, ?_, ?_⟩
    · have hstep : hsa_iterate_agents q ((b :: pre) ++ a :: post) l
          = hsa_iterate_agents q (pre ++ a :: post) (l ++ [r]) := by
        show hsa_iterate_agents q (b :: (pre ++ a :: post)) l = _
        simp only [hsa_iterate_agents, hr]
      rw [hstep, hrecs, List.append_assoc]
      rfl
    · simp only [List.map_cons, hra, hmap]
    · intro x hx
      rcases List.mem_cons.mp hx with h | h
      · subst h; exact hrl
      · exact hall x h

/-- Claim C5, amended: when the runtime initialises and the name, device-type or
NUMA-node query fails for an agent `a`, all agents reported before `a` having
succeeded, `InitAgents` started on an empty registry stops at `a`: the registry then
holds exactly one record for each agent reported before `a`, in reported order, none
for `a` or a later agent, and no memory pool has been cataloged. -/
theorem InitAgents_aborts_with_prefix (P : Platform) (pre post : List hsa_agent_t)
    (a : hsa_agent_t)
    (hinit : P.hsa_init = true) (hprof : P.hsa_amd_profiling_async_copy_enable = true)
    (hagents : P.agents = pre ++ a :: post)
    (hpre : ∀ b ∈ pre, (P.agent_queries.HSA_AGENT_INFO_NAME b).isSome = true ∧
      (P.agent_queries.HSA_AGENT_INFO_DEVICE b).isSome = true ∧
      (P.agent_queries.HSA_AGENT_INFO_NODE b).isSome = true)
    (hfail : P.agent_queries.HSA_AGENT_INFO_NAME a = none ∨
      P.agent_queries.HSA_AGENT_INFO_DEVICE a = none ∨
      P.agent_queries.HSA_AGENT_INFO_NODE a = none) :
    ∃ agent_list : List AgentInformation, InitAgents P [] = some agent_list ∧
      agent_list.map (fun r => r.agent) = pre ∧
      ∀ r ∈ agent_list, r.mem_pool_list = [] ∧ r.max_size_list = [] := by
  obtain ⟨recs, hrecs, hmap, hall⟩ :=
    hsa_iterate_agents_abort P.agent_queries a post hfail pre [] hpre
  refine ⟨recs, ?_, hmap, hall⟩
  unfold InitAgents
  simp only [hinit, hprof, hagents, hrecs]
  simp

/-- One call of `ProcessMemPool` on a pool whose segment query succeeds appends the
pool and its queried max size when the pool is eligible, and nothing otherwise. -/
theorem ProcessMemPool_step (q : PoolQueries) (p : hsa_amd_memory_pool_t)
    (info : AgentInformation)
    (hseg : (q.HSA_AMD_MEMORY_POOL_INFO_SEGMENT p).isSome = true) :
    ∃ info1 : AgentInformation,
      ProcessMemPool q p info = some (hsa_status_t.HSA_STATUS_SUCCESS, info1) ∧
      info1.mem_pool_list = info.mem_pool_list ++ (if eligible q p then [p] else []) ∧
      info1.max_size_list
        = info.max_size_list ++ (if eligible q p then [queried_max_size q p] else []) := by
  obtain ⟨seg, hs⟩ := Option.isSome_iff_exists.mp hseg
  unfold ProcessMemPool eligible queried_max_size
  simp only [hs]
  by_cases hg : hsa_amd_segment_t.GLOBAL = seg
  · subst hg
    cases hal : q.HSA_AMD_MEMORY_POOL_INFO_RUNTIME_ALLOC_ALLOWED p with
    | none => simp
    | some al =>
      cases al with
      | false => simp
      | true =>
        simp only [Option.getD_some, ne_eq, not_true_eq_false, if_false, beq_self_eq_true,
          Bool.and_self, if_true]
        split <;> exact ⟨_, rfl, rfl, rfl⟩
  · have hne : (some seg == some hsa_amd_segment_t.GLOBAL) = false := by
      cases seg <;> first | rfl | exact absurd rfl hg
    simp [hg, hne]

/-- The pool traversal appends the eligible pools, and their queried sizes, in order. -/
theorem iterate_memory_pools_append (q : PoolQueries) :
    ∀ (pools : List hsa_amd_memory_pool_t) (info : AgentInformation),
      (∀ p ∈ pools, (q.HSA_AMD_MEMORY_POOL_INFO_SEGMENT p).isSome = true) →
      ∃ info1 : AgentInformation,
        hsa_amd_agent_iterate_memory_pools q pools info
          = some (hsa_status_t.HSA_STATUS_SUCCESS, info1) ∧
        info1.mem_pool_list = info.mem_pool_list ++ pools.filter (eligible q) ∧
        info1.max_size_list
          = info.max_size_list ++ (pools.filter (eligible q)).map (queried_max_size q) := by
  intro pools
  induction pools with
  | nil =>
    intro info _
    exact ⟨info, rfl, by simp, by simp⟩
  | cons p rest ih =>
    intro info h
    obtain ⟨info1, h1, hp1, hm1⟩ := ProcessMemPool_step q p info (h p (List.mem_cons_self _ _))
    obtain ⟨info2, h2, hp2, hm2⟩ := ih info1 (fun x hx => h x (List.mem_cons_of_mem _ hx))
    refine ⟨info2, ?_, ?_, ?_⟩
    · simp only [hsa_amd_agent_iterate_memory_pools, h1, h2]
    · rw [hp2, hp1, List.filter_cons]
      cases eligible q p <;> simp
    · rw [hm2, hm1, List.filter_cons]
      cases eligible q p <;> simp

/-- Claim C6: starting from an agent record with empty pool lists, and for pools
whose segment and allocation-allowed queries succeed, running `ProcessMemPool` on
every reported pool in order succeeds and leaves in `mem_pool_list` exactly the
reported pools that are global and allocatable, in reported order; `max_size_list`
has the same length and holds at each index the size queried for the pool at that
index. Pools that are not eligible add nothing to either list. -/
theorem ProcessMemPool_catalog (q : PoolQueries) (pools : List hsa_amd_memory_pool_t)
    (info : AgentInformation)
    (hfresh : info.mem_pool_list = [] ∧ info.max_size_list = [])
    (hq : ∀ p ∈ pools, (q.HSA_AMD_MEMORY_POOL_INFO_SEGMENT p).isSome = true ∧
      (q.HSA_AMD_MEMORY_POOL_INFO_RUNTIME_ALLOC_ALLOWED p).isSome = true) :
    ∃ info1 : AgentInformation,
      hsa_amd_agent_iterate_memory_pools q pools info
        = some (hsa_status_t.HSA_STATUS_SUCCESS, info1) ∧
      info1.mem_pool_list = pools.filter (eligible q) ∧
      info1.max_size_list = (pools.filter (eligible q)).map (queried_max_size q) ∧
      info1.max_size_list.length = info1.mem_pool_list.length ∧
      ∀ (i : Nat) (p : hsa_amd_memory_pool_t), info1.mem_pool_list[i]? = some p →
        info1.max_size_list[i]? = some (queried_max_size q p) := by
  obtain ⟨info1, h1, hp, hm⟩ := iterate_memory_pools_append q pools info (fun p hp => (hq p hp).1)
  rw [hfresh.1, List.nil_append] at hp
  rw [hfresh.2, List.nil_append] at hm
  refine ⟨info1, h1, hp, hm, ?_, ?_⟩
  · rw [hm, hp, List.length_map]
  · intro i p hi
    rw [hm, List.getElem?_map, ← hp, hi]
    rfl

/-- Claim C9: `GetCopyTime` returns exactly `-1` when the profiling query fails; when
the query succeeds, whatever the two timestamps are (also with end before start),
the result is at least `0`, hence never the sentinel `-1`. -/
theorem GetCopyTime_nonneg_or_sentinel (rt : Runtime σ) (w : World σ)
    (signal_fwd : hsa_signal_t) :
    ((rt.hsa_amd_profiling_get_async_copy_time w.st signal_fwd).1 = none ∧
        (GetCopyTime rt w signal_fwd).1 = -1) ∨
    (∃ t_start t_end : Nat,
        (rt.hsa_amd_profiling_get_async_copy_time w.st signal_fwd).1 = some (t_start, t_end) ∧
        0 ≤ (GetCopyTime rt w signal_fwd).1 ∧ (GetCopyTime rt w signal_fwd).1 ≠ -1) := by
  unfold GetCopyTime
  rcases h : rt.hsa_amd_profiling_get_async_copy_time w.st signal_fwd with ⟨_ | ⟨t_start, t_end⟩, s1⟩
  · left
    exact ⟨rfl, rfl⟩
  · right
    refine ⟨t_start, t_end, rfl, ?_, ?_⟩
    · exact Int.ofNat_nonneg _
    · simp only []
      omega

/-- A record read from the agent list is a member of it. -/
theorem agentAt_mem (agent_list : List AgentInformation) (ix : Int) (a : AgentInformation)
    (h : agentAt agent_list ix = some a) : a ∈ agent_list := by
  unfold agentAt at h
  split at h
  · exact Option.noConfusion h
  · exact List.getElem?_mem h

/-- Claim C4: in a registry whose pool and max-size lists have equal lengths, for
valid agent indices, a successful `Allocate` returns a source pool that is an entry
of the source agent's pool list and a destination pool that is an entry of the
destination agent's pool list, and `Size` does not exceed the max size recorded at
those entries; and when `Size` exceeds the max size of every source pool, or of
every destination pool, `Allocate` returns `-1`. -/
theorem Allocate_respects_max_size (rt : Runtime σ) (agent_list : List AgentInformation)
    (SrcAgent DstAgent : Int) (Size : Nat) (w : World σ) (src dst : AgentInformation)
    (haligned : ∀ a ∈ agent_list, a.mem_pool_list.length = a.max_size_list.length)
    (hsrc : agentAt agent_list SrcAgent = some src)
    (hdst : agentAt agent_list DstAgent = some dst) :
    (∀ sp sb dp db,
      (Allocate rt agent_list SrcAgent DstAgent Size w).1 = AllocResult.success sp sb dp db →
        (∃ (i : Nat) (ms : Nat), src.mem_pool_list[i]? = some sp ∧
          src.max_size_list[i]? = some ms ∧ Size ≤ ms) ∧
        ∃ (j : Nat) (md : Nat), dst.mem_pool_list[j]? = some dp ∧
          dst.max_size_list[j]? = some md ∧ Size ≤ md) ∧
    (((∀ m ∈ src.max_size_list, m < Size) ∨ (∀ m ∈ dst.max_size_list, m < Size)) →
      (Allocate rt agent_list SrcAgent DstAgent Size w).1 = AllocResult.failure) := by
  have hrun : (Allocate rt agent_list SrcAgent DstAgent Size w)
      = src_pool_loop rt src dst Size src.mem_pool_list.length 0 w := by
    unfold Allocate
    rw [hsrc, hdst]
  rw [hrun]
  refine ⟨?_, ?_⟩
  · intro sp sb dp db h
    exact src_pool_loop_success rt src dst Size sp sb dp db _ _ _ h
  · intro hsmall
    exact src_pool_loop_too_small rt src dst Size
      (haligned src (agentAt_mem _ _ _ hsrc)) (haligned dst (agentAt_mem _ _ _ hdst))
      hsmall _ _ _ (by omega)

/-! ## Evaluations on concrete platforms -/

/-- Claim C1, evaluated where the permission query fails: `Allocate` allocates the
source buffer `100` from pool 10, the query fails, and `Allocate` returns `-1` with
the source buffer still allocated. -/
theorem Allocate_query_failure_keeps_source_buffer :
    (Allocate query_fails_runtime query_fails_registry 0 1 1024 start).1 = AllocResult.failure ∧
    (Allocate query_fails_runtime query_fails_registry 0 1 1024 start).2.log
      = [Event.allocate 10 1024 (some 100), Event.get_access 1 20 none] ∧
    heldBuffers (Allocate query_fails_runtime query_fails_registry 0 1 1024 start).2.log
      = [100] := by
  decide

/-- Witness for `Allocate_first_fit`: the pairs `(1, 1)`, `(1, 2)`, `(2, 1)` and `(2, 2)`
are workable and `Allocate` returns the pools 11 and 21 of the pair `(1, 1)`. -/
theorem Allocate_first_fit_witness :
    (Allocate first_fit_runtime [first_fit_src, first_fit_dst] 0 1 1024 start).1
      = AllocResult.success 11 110 21 210 ∧
    (((∃ sp sb dp db, (Allocate first_fit_runtime [first_fit_src, first_fit_dst] 0 1 1024 start).1
          = AllocResult.success sp sb dp db) ↔
        ∃ i j, workable alloc_ok first_fit_access first_fit_grant first_fit_src first_fit_dst
          1024 i j) ∧
    (∀ sp sb dp db, (Allocate first_fit_runtime [first_fit_src, first_fit_dst] 0 1 1024 start).1
          = AllocResult.success sp sb dp db →
        ∃ i j, workable alloc_ok first_fit_access first_fit_grant first_fit_src first_fit_dst
            1024 i j ∧
          (∀ a b, workable alloc_ok first_fit_access first_fit_grant first_fit_src first_fit_dst
            1024 a b → i < a ∨ (i = a ∧ j ≤ b)) ∧
          first_fit_src.mem_pool_list[i]? = some sp ∧
          first_fit_dst.mem_pool_list[j]? = some dp)) :=
  ⟨by decide,
    Allocate_first_fit first_fit_runtime alloc_ok first_fit_access first_fit_grant
      [first_fit_src, first_fit_dst] 0 1 1024 start first_fit_src first_fit_dst
      (by decide) (by decide) (by decide)
      (fun _ _ _ => rfl) (fun _ _ _ => rfl) (fun _ _ _ => rfl)⟩

/-- Claim C3, evaluated for a CPU source agent with pools `[10, 11]`: while the source
buffer `100` from source pool index 0 (pool 10) is held, the query issued at
destination index 1 is onto pool 11, the source pool at index 1, and `Allocate`
pairs pool 10 with pool 21 although the destination agent may never access pool 10. -/
theorem Allocate_cpu_source_queries_pool_at_destination_index :
    (cpu_source_registry[0]?).map (fun a => a.mem_pool_list) = some [10, 11] ∧
    (Allocate cpu_source_runtime cpu_source_registry 0 1 1024 start).2.log
      = [Event.allocate 10 1024 (some 100),
         Event.get_access 2 10 (some hsa_amd_memory_pool_access_t.NEVER_ALLOWED),
         Event.get_access 2 11 (some hsa_amd_memory_pool_access_t.ALLOWED_BY_DEFAULT),
         Event.allocate 21 1024 (some 210),
         Event.allow_access 2 100 true] ∧
    (Allocate cpu_source_runtime cpu_source_registry 0 1 1024 start).1
      = AllocResult.success 10 100 21 210 := by
  decide

/-- Witness for `Allocate_respects_max_size`: with one pool of max size 512 on each
side a request of 1024 bytes returns `-1`, and a request of 512 bytes succeeds with
pools whose recorded max size is at least 512. -/
theorem Allocate_respects_max_size_witness :
    (Allocate allow_all_runtime [small_pool_src, small_pool_dst] 0 1 1024 start).1
      = AllocResult.failure ∧
    (Allocate allow_all_runtime [small_pool_src, small_pool_dst] 0 1 512 start).1
      = AllocResult.success 10 100 20 200 ∧
    ((∃ (i : Nat) (ms : Nat), small_pool_src.mem_pool_list[i]? = some 10 ∧
        small_pool_src.max_size_list[i]? = some ms ∧ 512 ≤ ms) ∧
      ∃ (j : Nat) (md : Nat), small_pool_dst.mem_pool_list[j]? = some 20 ∧
        small_pool_dst.max_size_list[j]? = some md ∧ 512 ≤ md) :=
  ⟨(Allocate_respects_max_size allow_all_runtime [small_pool_src, small_pool_dst] 0 1 1024
      start small_pool_src small_pool_dst (by decide) (by decide) (by decide)).2
      (Or.inl (by decide)),
    by decide,
    (Allocate_respects_max_size allow_all_runtime [small_pool_src, small_pool_dst] 0 1 512
      start small_pool_src small_pool_dst (by decide) (by decide) (by decide)).1
      10 100 20 200 (by decide)⟩

/-- Claim C5 as stated fails: the platform reports agents 7, 8 and 9, the name query
fails for agent 8, and after `InitAgents` the registry still holds the record of
agent 7. -/
theorem InitAgents_keeps_earlier_agents :
    sample_platform.agents = [7, 8, 9] ∧
    sample_platform.agent_queries.HSA_AGENT_INFO_NAME 8 = none ∧
    InitAgents sample_platform []
      = some [{ agent := 7, agent_name := "", agent_device_type := "GPU", node := 3,
                sys_pool := none, mem_pool_list := [], max_size_list := [] }] ∧
    InitAgents sample_platform [] ≠ some [] := by
  decide

/-- Witness for `InitAgents_aborts_with_prefix`: agents 7, 8, 9 with the name query of
agent 8 failing. -/
theorem InitAgents_aborts_with_prefix_witness :
    ∃ agent_list : List AgentInformation, InitAgents sample_platform [] = some agent_list ∧
      agent_list.map (fun r => r.agent) = [7] ∧
      ∀ r ∈ agent_list, r.mem_pool_list = [] ∧ r.max_size_list = [] :=
  InitAgents_aborts_with_prefix sample_platform [7] [9] 8 rfl rfl rfl (by decide)
    (Or.inl (by decide))

/-- Witness for `ProcessMemPool_catalog`: of the reported pools 1, 2, 3, 4 only pools 1
and 4 are global and allocatable. -/
theorem ProcessMemPool_catalog_witness :
    [1, 2, 3, 4].filter (eligible sample_pool_queries) = [1, 4] ∧
    ∃ info1 : AgentInformation,
      hsa_amd_agent_iterate_memory_pools sample_pool_queries [1, 2, 3, 4]
          (agent_record 7 "GPU" [] [])
        = some (hsa_status_t.HSA_STATUS_SUCCESS, info1) ∧
      info1.mem_pool_list = [1, 2, 3, 4].filter (eligible sample_pool_queries) ∧
      info1.max_size_list = ([1, 2, 3, 4].filter (eligible sample_pool_queries)).map
        (queried_max_size sample_pool_queries) ∧
      info1.max_size_list.length = info1.mem_pool_list.length ∧
      ∀ (i : Nat) (p : hsa_amd_memory_pool_t), info1.mem_pool_list[i]? = some p →
        info1.max_size_list[i]? = some (queried_max_size sample_pool_queries p) :=
  ⟨by decide,
    ProcessMemPool_catalog sample_pool_queries [1, 2, 3, 4] (agent_record 7 "GPU" [] [])
      ⟨rfl, rfl⟩ (by decide)⟩

/-- Claim C7, evaluated where issuing the asynchronous copy fails: `test` returns `-1`
with the source buffer `100`, the destination buffer `200` and the signal `1` still
held. -/
theorem test_copy_failure_keeps_buffers_and_signal :
    (test copy_fails_runtime ten_agent_registry 10 5 start).1 = TestResult.returned (-1) ∧
    heldBuffers (test copy_fails_runtime ten_agent_registry 10 5 start).2.log = [100, 200] ∧
    heldSignals (test copy_fails_runtime ten_agent_registry 10 5 start).2.log = [1] := by
  decide

/-- Claim C8, evaluated on an agent whose name query answers gfx900: `ProcessAgent`
returns success and appends one record with the handle, the device type GPU and the
node, whose name is the empty string and not the queried name. -/
theorem ProcessAgent_records_empty_name :
    sample_agent_queries.HSA_AGENT_INFO_NAME 7 = some ("gfx900") ∧
    ProcessAgent sample_agent_queries 7 []
      = (hsa_status_t.HSA_STATUS_SUCCESS,
          [{ agent := 7, agent_name := "", agent_device_type := "GPU", node := 3,
             sys_pool := none, mem_pool_list := [], max_size_list := [] }]) := by
  decide

/-- Claim C10, evaluated for a CPU source agent with one pool and a destination agent
with two pools, in a registry with index-aligned lists and with valid agent indices:
at destination index 1 `Allocate` reads `mem_pool_list[1]` of the source agent,
whose list has length 1. -/
theorem Allocate_cpu_source_reads_past_pool_list :
    (∀ a ∈ short_source_registry, a.mem_pool_list.length = a.max_size_list.length) ∧
    (agentAt short_source_registry 0).isSome = true ∧
    (agentAt short_source_registry 1).isSome = true ∧
    (agentAt short_source_registry 0).map (fun a => a.mem_pool_list.length) = some 1 ∧
    (Allocate never_allowed_runtime short_source_registry 0 1 1024 start).1
      = AllocResult.out_of_range 1 1 := by
  decide

end Amat
